import Mathlib

/-!
Shallow embedding of `src/parse_spreadsheet.py` (a minimal plaintext
spreadsheet evaluator) and proofs about the claims of its specification.

Modelling conventions:
* Python dicts (which preserve insertion order) are association lists
  `List (String × _)`; `dictGet`/`dictSet`/`dictDel` mirror indexing,
  assignment and `del`.
* Python floats are modelled as `Rat`.  Every numeric value appearing in a
  settled claim is exactly representable, so no rounding behaviour matters.
* Python exceptions are the `Err` inductive, returned through `Except`.
* The recursive evaluator is given a `fuel : Nat` bounding the call depth;
  exhausting it yields `Err.recursionLimit`, the analogue of Python's
  `RecursionError`.  Terminating runs are fuel-independent once the fuel is
  large enough (proved below as monotonicity lemmas).
* The in-place memoisation of `CellOperand.evaluate` (a node overwriting its
  own value) only short-circuits later re-walks of an already resolved chain;
  it never changes any produced value.  The embedding is the equivalent pure
  evaluator: `Sheet.evaluate`'s overwriting of grid entries is modelled by
  threading the updated grid through the fold.
-/

namespace Spreadsheet

/-- Python exception classes of the source file, plus the runtime errors the
interpreter itself can raise while running it. -/
inductive Err
  | circularDependency          -- CircularDependencyError
  | invalidReference            -- InvalidReferenceError
  | incorrectlyFormattedCell    -- IncorrectlyFormattedCellError
  | columnNumberLargerThanAlphabet -- ColumnNumberLargerThanAlphabetError
  | keyError                    -- KeyError (dict lookup with a missing key)
  | indexError                  -- IndexError (named by get_cell's handler; never raised here)
  | attributeError              -- AttributeError (attribute access on None)
  | typeError                   -- TypeError (arithmetic between str and float)
  | zeroDivision                -- ZeroDivisionError
  | recursionLimit              -- RecursionError (modelled by fuel exhaustion)
deriving DecidableEq

/-- A `CellOperand`: `_value` is a float and `_is_reference` is False, or
`_value` is the referenced key's text and `_is_reference` is True. -/
inductive Operand
  | num (v : Rat)
  | ref (k : String)
deriving DecidableEq

/-- A parsed cell node, or the Python `None` that `Sheet.evaluate` stores in
the grid when `CellExpression.evaluate` falls off its operator dispatch. -/
inductive Cell
  | op (o : Operand)
  | expr (operator : String) (o1 o2 : Operand)  -- CellExpression(operator, [o1, o2])
  | pynone
deriving DecidableEq

/-- Python `CellOperand.dependencies`: `[self.value] if self.is_reference else []`. -/
def Operand.dependencies : Operand → List String
  | .num _ => []
  | .ref k => [k]

/-- The `dependencies` of a cell: a reference operand contributes its key, an
expression contributes the keys of its reference operands, in order.
(`pynone` never exists before evaluation, so its value is irrelevant.) -/
def Cell.dependencies : Cell → List String
  | .op o => o.dependencies
  | .expr _ o1 o2 => o1.dependencies ++ o2.dependencies
  | .pynone => []

abbrev Grid := List (String × Cell)
abbrev DepGraph := List (String × List String)

/-- Ordered-dict lookup: `d[k]` as an `Option`. -/
def dictGet {α : Type} : List (String × α) → String → Option α
  | [], _ => none
  | (k, v) :: t, key => if k = key then some v else dictGet t key

/-- Ordered-dict assignment `d[k] = v`: replaces in place, else appends
(Python dicts preserve insertion order). -/
def dictSet {α : Type} : List (String × α) → String → α → List (String × α)
  | [], key, v => [(key, v)]
  | (k, w) :: t, key, v => if k = key then (key, v) :: t else (k, w) :: dictSet t key v

/-- Ordered-dict deletion `del d[k]`. -/
def dictDel {α : Type} : List (String × α) → String → List (String × α)
  | [], _ => []
  | (k, w) :: t, key => if k = key then t else (k, w) :: dictDel t key

/-- Split a character list at every occurrence of `sep`; the semantics of
Python's `str.split(sep)` for a one-character separator (an empty input
yields one empty field, separators at the ends yield empty fields). -/
def splitChar (sep : Char) : List Char → List (List Char)
  | [] => [[]]
  | c :: rest =>
    let r := splitChar sep rest
    if c = sep then [] :: r else (c :: r.headD []) :: r.tail

/-- Python `s.split(sep)` for a one-character separator. -/
def splitOnChar (sep : Char) (s : String) : List String :=
  (splitChar sep s.data).map String.mk

/-- Drop leading and trailing characters satisfying `p`. -/
def trimBy (p : Char → Bool) (cs : List Char) : List Char :=
  ((cs.dropWhile p).reverse.dropWhile p).reverse

/-- Python `str.strip()` (whitespace from both ends). -/
def pyStrip (s : String) : String := String.mk (trimBy Char.isWhitespace s.data)

/-- Python `str.strip('\n')` (newlines from both ends). -/
def stripNL (s : String) : String := String.mk (trimBy (fun c => c == '\n') s.data)

/-- Value of a list of decimal digit characters. -/
def digitsVal (l : List Char) : Nat :=
  l.foldl (fun a c => a * 10 + (c.toNat - 48)) 0

/-- Exponent suffix of a float literal (after the `e`/`E`). -/
def parseExpDigits (base : Rat) (cs : List Char) : Option Rat :=
  let sd : Int × List Char :=
    match cs with
    | '+' :: r => (1, r)
    | '-' :: r => (-1, r)
    | r => (1, r)
  if sd.2.isEmpty || !(sd.2.all Char.isDigit) then none
  else some (base * (10 : Rat) ^ (sd.1 * (digitsVal sd.2 : Int)))

/-- Optional `e`/`E` exponent after the mantissa. -/
def parseExpPart (base : Rat) (cs : List Char) : Option Rat :=
  match cs with
  | [] => some base
  | 'e' :: r => parseExpDigits base r
  | 'E' :: r => parseExpDigits base r
  | _ => none

/-- Unsigned float literal: digits, optional fraction, optional exponent. -/
def parseUnsigned (cs : List Char) : Option Rat :=
  let ip := cs.takeWhile Char.isDigit
  let rest := cs.dropWhile Char.isDigit
  match rest with
  | '.' :: r =>
    let fp := r.takeWhile Char.isDigit
    let rest2 := r.dropWhile Char.isDigit
    if ip.isEmpty && fp.isEmpty then none
    else parseExpPart ((digitsVal ip : Rat) + (digitsVal fp : Rat) / (10 : Rat) ^ fp.length) rest2
  | _ =>
    if ip.isEmpty then none else parseExpPart (digitsVal ip : Rat) rest

/-- Model of Python `float(s)` on the decimal grammar: optional surrounding
whitespace, optional sign, digits with optional fraction and exponent.
(`inf`/`nan`/underscore separators are not modelled; no claim involves them.)
`none` models the `ValueError` branch of `CellOperand.__init__`. -/
def parseFloat (s : String) : Option Rat :=
  match trimBy Char.isWhitespace s.data with
  | '+' :: r => parseUnsigned r
  | '-' :: r => (parseUnsigned r).map Neg.neg
  | r => parseUnsigned r

/-- Model of `CellOperand.__init__(value)` for a text field: a parseable float becomes
a numeric operand, otherwise the text is kept as a reference. -/
def mkOperand (s : String) : Operand :=
  match parseFloat s with
  | some v => .num v
  | none => .ref s

/-- Python `s == 0` where `s` is a `str`: comparing a string with the integer
zero is always `False` (this is the inert comparison of `get_parsed_cell`). -/
def pyStrEqIntZero (_s : String) : Bool := false

/-- Model of `get_parsed_cell`: strip, split on single spaces, then dispatch on the
token count.  The `equates_to_zero` test is kept exactly as written in the
source: `cell_array is None or cell_array[0] == 0`, where the first disjunct
is never true (`split` always returns a list) and the second compares a
`str` against the integer `0`. -/
def get_parsed_cell (cell_text : String) : Except Err Cell :=
  let cell_array := splitOnChar ' ' (pyStrip cell_text)
  let equates_to_zero := cell_array.isEmpty || pyStrEqIntZero (cell_array.headD "")
  if equates_to_zero then .ok (.op (.num 0))
  else if cell_array.length = 1 then .ok (.op (mkOperand (cell_array.headD "")))
  else if cell_array.length = 3 then
    .ok (.expr (cell_array.getD 2 "") (mkOperand (cell_array.headD "")) (mkOperand (cell_array.getD 1 "")))
  else .error .incorrectlyFormattedCell

/-- Column letters, `string.ascii_uppercase`. -/
def alphabetChars : List Char := "ABCDEFGHIJKLMNOPQRSTUVWXYZ".data

/-- The cell key `f'{alphabet[col_num]}{row_num}'` (the guard in `_parse_row` keeps
`col_num < 26`, so the default is never used). -/
def cell_key (row_num col_num : Nat) : String :=
  String.mk [alphabetChars.getD col_num '?'] ++ toString row_num

/-- The cell loop of `Sheet._parse_row`: parse each field and store it under
its key.  The first malformed cell aborts the row. -/
def parse_cells (row_num : Nat) : Grid → Nat → List String → Except Err Grid
  | g, _, [] => .ok g
  | g, col_num, cell_text :: rest =>
    match get_parsed_cell cell_text with
    | .error e => .error e
    | .ok cell => parse_cells row_num (dictSet g (cell_key row_num col_num) cell) (col_num + 1) rest

/-- Model of `Sheet._parse_row`: strip newlines, split on commas, and fail before
parsing any cell if the row has more than 26 fields. -/
def parse_row (g : Grid) (row_num : Nat) (row : String) : Except Err Grid :=
  let fields := splitOnChar ',' (stripNL row)
  if fields.length > 26 then .error .columnNumberLargerThanAlphabet
  else parse_cells row_num g 0 fields

/-- Row loop of `Sheet.build_cell_graph` (`enumerate(lines, start=1)`). -/
def build_rows : Grid → Nat → List String → Except Err Grid
  | g, _, [] => .ok g
  | g, row_num, row :: rest =>
    match parse_row g row_num row with
    | .error e => .error e
    | .ok g' => build_rows g' (row_num + 1) rest

/-- Model of `Sheet.build_cell_graph`. -/
def build_cell_graph (lines : List String) : Except Err Grid :=
  build_rows [] 1 lines

/-- Model of `Sheet._add_dependency_to_graph`.  Note the source's
`if not self._dependency_graph.get(dependency_key)` treats an existing empty
list like a missing entry. -/
def add_dependency (dg : DepGraph) (ck dep : String) : DepGraph :=
  match dictGet dg dep with
  | none => dictSet dg dep [ck]
  | some [] => dictSet dg dep [ck]
  | some l => dictSet dg dep (l ++ [ck])

/-- Inner loop of `Sheet.build_dependency_graph` over one cell's
dependencies. -/
def add_deps (ck : String) : DepGraph → List String → DepGraph
  | dg, [] => dg
  | dg, d :: rest => add_deps ck (add_dependency dg ck d) rest

/-- Model of `Sheet.build_dependency_graph`, iterating the grid in insertion order. -/
def build_dep_entries : DepGraph → Grid → DepGraph
  | dg, [] => dg
  | dg, (k, c) :: rest => build_dep_entries (add_deps k dg c.dependencies) rest

def build_dependency_graph (g : Grid) : DepGraph :=
  build_dep_entries [] g

/-- Model of `Sheet.get_cell`: the dict lookup raises `KeyError` on a missing key;
the surrounding handler catches only `IndexError` and would re-raise it as
`InvalidReferenceError`. -/
def get_cell (g : Grid) (k : String) : Except Err Cell :=
  let attempt : Except Err Cell :=
    match dictGet g k with
    | some c => .ok c
    | none => .error .keyError
  match attempt with
  | .error .indexError => .error .invalidReference
  | r => r

/-- Model of `Sheet._check_references`: every key of the dependency graph must be a
grid key; the first missing one raises `InvalidReferenceError`. -/
def check_references (g : Grid) : DepGraph → Except Err Unit
  | [] => .ok ()
  | (key, _) :: rest =>
    if (dictGet g key).isNone then .error .invalidReference
    else check_references g rest

/-- Python `x == l` where `x` is a `str` and `l` is a `list`: always
`False`.  This is the comparison performed element-wise by
`dependency_key not in self.dependency_graph.values()` in `Sheet._sort`. -/
def pyEqStrList (_k : String) (_l : List String) : Bool := false

/-- The inner `while self.dependency_graph.get(prev_key)` loop of
`Sheet._sort`: pop the last dependent, and for each of its dependencies
append it to the ready queue whenever the dependency "is not in
`dependency_graph.values()`" — a membership test of a string in a list of
lists, hence always true. -/
def drain_loop (g : Grid) : Nat → DepGraph → String → List String → Except Err (DepGraph × List String)
  | fuel, dg, prev_key, queue =>
    match dictGet dg prev_key with
    | none => .ok (dg, queue)
    | some [] => .ok (dg, queue)
    | some (c :: cs) =>
      match fuel with
      | 0 => .error .recursionLimit
      | fuel' + 1 =>
        let check_key := (c :: cs).getLastD ""
        let dg' := dictSet dg prev_key (c :: cs).dropLast
        match get_cell g check_key with
        | .error e => .error e
        | .ok cell =>
          let queue' := cell.dependencies.foldl
            (fun q _dep =>
              if (dg'.map Prod.snd).all (fun lst => !(pyEqStrList _dep lst))
              then q ++ [check_key] else q) queue
          drain_loop g fuel' dg' prev_key queue'

/-- Model of `Sheet._empty_list_cleanup`. -/
def empty_list_cleanup (dg : DepGraph) (key : String) : DepGraph :=
  match dictGet dg key with
  | none => dg            -- KeyError: pass
  | some (_ :: _) => dg   -- "if not empty list, a mistake was made"
  | some [] => dictDel dg key

/-- The outer `while keys_with_no_dependencies` loop of `Sheet._sort`
(`pop()` takes the last element). -/
def sort_loop (g : Grid) : Nat → DepGraph → List String → List (String × Cell) → Except Err (DepGraph × List (String × Cell))
  | _, dg, [], sorted => .ok (dg, sorted)
  | 0, _, _ :: _, _ => .error .recursionLimit
  | fuel + 1, dg, q :: qs, sorted =>
    let prev_key := (q :: qs).getLastD ""
    let queue' := (q :: qs).dropLast
    match get_cell g prev_key with
    | .error e => .error e
    | .ok cell =>
      let sorted' := sorted ++ [(prev_key, cell)]
      match drain_loop g fuel dg prev_key queue' with
      | .error e => .error e
      | .ok (dg', queue'') =>
        sort_loop g fuel (empty_list_cleanup dg' prev_key) queue'' sorted'

/-- The seed queue of `Sheet._sort`: grid keys whose cell has no
dependencies, in grid order. -/
def keys_without_deps : Grid → List String
  | [] => []
  | (k, c) :: rest =>
    if c.dependencies.isEmpty then k :: keys_without_deps rest
    else keys_without_deps rest

/-- Model of `Sheet._sort`. -/
def sort (g : Grid) (dg : DepGraph) (fuel : Nat) : Except Err (DepGraph × List (String × Cell)) :=
  sort_loop g fuel dg (keys_without_deps g) []

/-- Model of `Sheet.validate`: check references, run the sort, then raise
`CircularDependencyError` iff the dependency graph is still non-empty
(`_circular_dependencies_exist` is the truthiness of the dict). -/
def validate (g : Grid) (dg : DepGraph) (fuel : Nat) : Except Err (DepGraph × List (String × Cell)) :=
  match check_references g dg with
  | .error e => .error e
  | .ok () =>
    match sort g dg fuel with
    | .error e => .error e
    | .ok (dg', sorted) =>
      if dg'.isEmpty then .ok (dg', sorted) else .error .circularDependency

/-- The body of `CellExpression.evaluate` after both operand evaluations:
propagate an operand failure (operand one first, as Python evaluates it
first), read `.value` off each result, and dispatch on the operator symbol.
An operator other than `+ - * /` falls off the `elif` chain and returns
Python `None` (`.ok none`).  A successful operand evaluation always yields a
numeric operand (proved below), so the `typeError` arms are dead; they stand
for the `TypeError` Python would raise mixing a `str` value into the
arithmetic. -/
def exprCombine (operator : String) :
    Except Err Operand → Except Err Operand → Except Err (Option Operand)
  | .error e, _ => .error e
  | .ok (.ref _), _ => .error .typeError
  | .ok (.num _), .error e => .error e
  | .ok (.num _), .ok (.ref _) => .error .typeError
  | .ok (.num v1), .ok (.num v2) =>
    if operator = "+" then .ok (some (.num (v1 + v2)))
    else if operator = "-" then .ok (some (.num (v1 - v2)))
    else if operator = "*" then .ok (some (.num (v1 * v2)))
    else if operator = "/" then
      if v2 = 0 then .error .zeroDivision else .ok (some (.num (v1 / v2)))
    else .ok none

/-- Model of `CellExpression.evaluate`, parameterised by the evaluator used on the two
operand sub-nodes. -/
def evalExprWith (ev : Operand → Except Err Operand) (operator : String) (o1 o2 : Operand) :
    Except Err (Option Operand) :=
  exprCombine operator (ev o1) (ev o2)

/-- A `CellOperand.evaluate` result seen as a cell-evaluation result: a
returned operand (never Python `None`), or the propagated error. -/
def wrapOperand : Except Err Operand → Except Err (Option Operand)
  | .error e => .error e
  | .ok o' => .ok (some o')

/-- Dispatch of `cell.evaluate(sheet)` on the runtime class of `cell`:
`CellOperand.evaluate` via `ev` (a returned `CellOperand`, never `None`),
`CellExpression.evaluate` via `evalExprWith`, and calling `.evaluate` on a
stored `None` raises `AttributeError`. -/
def evalCellWith (ev : Operand → Except Err Operand) : Cell → Except Err (Option Operand)
  | .op o => wrapOperand (ev o)
  | .expr operator o1 o2 => evalExprWith ev operator o1 o2
  | .pynone => .error .attributeError

/-- The body of the `while self.is_reference` loop of `CellOperand.evaluate`
after the referenced cell evaluated: `self._value = referenced_cell.value`
raises `AttributeError` when the referenced evaluation returned `None`;
otherwise the value and reference flag are adopted, and the loop re-enters
(via `ev`) while the adopted value is still a reference. -/
def resolveAdopt (ev : Operand → Except Err Operand) :
    Except Err (Option Operand) → Except Err Operand
  | .error e => .error e
  | .ok none => .error .attributeError
  | .ok (some (.num v)) => .ok (.num v)
  | .ok (some (.ref k2)) => ev (.ref k2)

/-- One resolution step of `CellOperand.evaluate` on a reference:
`sheet.get_cell(self.value)` (propagating its error), `.evaluate(sheet)` on
the cell found, then adoption. -/
def evalOpStep (ev : Operand → Except Err Operand) :
    Except Err Cell → Except Err Operand
  | .error e => .error e
  | .ok c => resolveAdopt ev (evalCellWith ev c)

/-- Model of `CellOperand.evaluate`: a non-reference returns itself; a reference
resolves through the grid, each nested call one fuel level down. -/
def evalOp (g : Grid) : Nat → Operand → Except Err Operand
  | _, .num v => .ok (.num v)
  | 0, .ref _ => .error .recursionLimit
  | fuel + 1, .ref k => evalOpStep (evalOp g fuel) (get_cell g k)

/-- Evaluation of a grid cell at a given fuel: `cell.evaluate(sheet)`. -/
def evalCell (g : Grid) (fuel : Nat) : Cell → Except Err (Option Operand) :=
  evalCellWith (evalOp g fuel)

/-- Evaluation of the cell stored under a key:
`sheet.get_cell(key).evaluate(sheet)`. -/
def evalCellAt (g : Grid) (fuel : Nat) (k : String) : Except Err (Option Operand) :=
  match get_cell g k with
  | .error e => .error e
  | .ok c => evalCell g fuel c

/-- Model of `Sheet.evaluate`: walk the sorted cells, evaluate each captured cell and
overwrite its grid entry with the result (an `Operand`, or the Python `None`
an unhandled operator produces). -/
def sheet_evaluate (fuel : Nat) : Grid → List (String × Cell) → Except Err Grid
  | g, [] => .ok g
  | g, (k, c) :: rest =>
    match evalCell g fuel c with
    | .error e => .error e
    | .ok (some o) => sheet_evaluate fuel (dictSet g k (.op o)) rest
    | .ok none => sheet_evaluate fuel (dictSet g k .pynone) rest

/-- Zero-pad a digit string on the left to width `k`. -/
def padZeros (s : String) (k : Nat) : String :=
  String.mk (List.replicate (k - s.data.length) '0') ++ s

/-- Model of Python `str(float)` restricted to the values this program can
render: integral values print as `n.0`; values with a terminating decimal
expansion print their shortest expansion (Python's repr is
shortest-round-trip, which agrees on these); the fallback branch is
unreachable for actual float values and is arbitrary. -/
def floatRepr (v : Rat) : String :=
  if v.den = 1 then toString v.num ++ ".0"
  else
    match (List.range 18).find? (fun k => (v * (10 : Rat) ^ k).den = 1) with
    | some k =>
      let a := (v * (10 : Rat) ^ k).num.natAbs
      (if v < 0 then "-" else "") ++ toString (a / 10 ^ k) ++ "." ++ padZeros (toString (a % 10 ^ k)) k
    | none => toString v.num ++ "/" ++ toString v.den

/-- Rendering of one cell's `value.value`: the float of a numeric operand, the
key text of a reference operand, Python `None` (rendered `"None"`) for a
`CellExpression` (its `value` property returns nothing), and an
`AttributeError` for a stored `None`. -/
def cell_value_str : Cell → Except Err String
  | .op (.num v) => .ok (floatRepr v)
  | .op (.ref k) => .ok k
  | .expr _ _ _ => .ok "None"
  | .pynone => .error .attributeError

/-- The fold of `Sheet.get_plaintext_lines`: a newline before each key whose
first character is `A` unless the accumulator is still empty, then the
rendered value and a comma. -/
def render_cells : String → Grid → Except Err String
  | acc, [] => .ok acc
  | acc, (k, c) :: rest =>
    let acc' := if k.data.headD ' ' == 'A' && !(acc == "") then acc ++ "\n" else acc
    match cell_value_str c with
    | .error e => .error e
    | .ok s => render_cells (acc' ++ s ++ ",") rest

def get_plaintext_lines (g : Grid) : Except Err String :=
  render_cells "" g

/-- The pipeline of `main` up to and including `validate`: build the grid,
build the dependency graph, validate. -/
def run_validate (lines : List String) (fuel : Nat) :
    Except Err (Grid × DepGraph × List (String × Cell)) :=
  match build_cell_graph lines with
  | .error e => .error e
  | .ok g =>
    match validate g (build_dependency_graph g) fuel with
    | .error e => .error e
    | .ok (dg', sorted) => .ok (g, dg', sorted)

/-- The pipeline of `main` up to and including `evaluate` (returns the final
grid; rendering is `get_plaintext_lines`). -/
def run_pipeline (lines : List String) (fuel : Nat) : Except Err Grid :=
  match run_validate lines fuel with
  | .error e => .error e
  | .ok (g, _, sorted) => sheet_evaluate fuel g sorted

/-- A grid whose every cell is a numeric literal operand. -/
def AllLiteral (g : Grid) : Prop :=
  ∀ k c, (k, c) ∈ g → ∃ v : Rat, c = Cell.op (.num v)

/-- Acyclicity of a grid's reference structure, stated as the existence of a
rank strictly increasing along the "is a dependency of" relation (for the
finite graphs at hand this is the usual "no directed cycle"). -/
def Acyclic (g : Grid) : Prop :=
  ∃ rank : String → Nat,
    ∀ a b c, dictGet g b = some c → a ∈ c.dependencies → rank a < rank b

/-- Every expression cell of the grid uses one of the four handled
operators. -/
def OpsValid (g : Grid) : Prop :=
  ∀ k operator o1 o2, dictGet g k = some (Cell.expr operator o1 o2) →
    operator = "+" ∨ operator = "-" ∨ operator = "*" ∨ operator = "/"

/-- The operand sub-nodes a cell's evaluation touches. -/
def opsOf : Cell → List Operand
  | .op o => [o]
  | .expr _ o1 o2 => [o1, o2]
  | .pynone => []

/-- Evaluation of a cell terminates: past some fuel it returns a fixed
result that is not fuel exhaustion. -/
def TermCell (g : Grid) (c : Cell) : Prop :=
  ∃ fuel r, r ≠ .error .recursionLimit ∧ ∀ fuel', fuel ≤ fuel' → evalCell g fuel' c = r

/-- Evaluation of an operand terminates. -/
def TermOp (g : Grid) (o : Operand) : Prop :=
  ∃ fuel r, r ≠ .error .recursionLimit ∧ ∀ fuel', fuel ≤ fuel' → evalOp g fuel' o = r

/-- The rows of the cyclic sheet `A1 = "B1 C1 +"`, `B1 = "A1"`, `C1 = "5"`
(`A1` and `B1` reference each other; `C1` is a literal). -/
def c1Rows : List String := ["B1 C1 +,A1,5"]

/-- The grid those rows parse to. -/
def c1Grid : Grid :=
  [("A1", .expr "+" (.ref "B1") (.ref "C1")), ("B1", .op (.ref "A1")), ("C1", .op (.num 5))]

/-- The rows of the acyclic sheet `A1 = 5`, `B1 = "A1 C1 +"`, `C1 = 7`. -/
def c2Rows : List String := ["5,A1 C1 +,7"]

/-- The grid of the sheet `A1 = "B1"`, `B1 = "1 2 %"` (a pure reference to
an expression cell with an unhandled operator). -/
def c6xGrid : Grid :=
  [("A1", .op (.ref "B1")), ("B1", .expr "%" (.num 1) (.num 2))]

/-- The grid of the sheet `A1 = "B1"`, `B1 = "5"` (spec scenario 2). -/
def c6wGrid : Grid :=
  [("A1", .op (.ref "B1")), ("B1", .op (.num 5))]

/- ------------------------------------------------------------------ -/
/- Helper lemmas about the ordered-dict model.                         -/
/- ------------------------------------------------------------------ -/

theorem dictGet_dictSet (g : List (String × α)) (k x : String) (v : α) :
    dictGet (dictSet g k v) x = if k = x then some v else dictGet g x := by
  induction g with
  | nil => simp [dictGet, dictSet]
  | cons p t ih =>
    obtain ⟨k', w⟩ := p
    by_cases h1 : k' = k
    · subst h1
      by_cases h2 : k' = x <;> simp [dictGet, dictSet, h2]
    · by_cases h2 : k' = x
      · subst h2
        simp [dictGet, dictSet, h1]
        rw [if_neg (fun hh => h1 hh.symm)]
      · simp [dictGet, dictSet, h1, h2, ih]

theorem dictGet_mem {g : List (String × α)} {k : String} {v : α}
    (h : dictGet g k = some v) : (k, v) ∈ g := by
  induction g with
  | nil => simp [dictGet] at h
  | cons p t ih =>
    obtain ⟨k', w⟩ := p
    by_cases h1 : k' = k
    · subst h1
      simp [dictGet] at h
      simp [h]
    · simp [dictGet, h1] at h
      exact List.mem_cons_of_mem _ (ih h)

theorem dictSet_self {g : List (String × α)} {k : String} {v : α}
    (h : dictGet g k = some v) : dictSet g k v = g := by
  induction g with
  | nil => simp [dictGet] at h
  | cons p t ih =>
    obtain ⟨k', w⟩ := p
    by_cases h1 : k' = k
    · subst h1
      simp [dictGet] at h
      simp [dictSet, h]
    · simp [dictGet, h1] at h
      simp [dictSet, h1, ih h]

theorem mem_keys_isSome {g : List (String × α)} {k : String}
    (h : k ∈ g.map Prod.fst) : (dictGet g k).isSome := by
  induction g with
  | nil => simp at h
  | cons p t ih =>
    obtain ⟨k', w⟩ := p
    by_cases h1 : k' = k
    · simp [dictGet, h1]
    · rw [List.map_cons] at h
      have h' : k ∈ t.map Prod.fst := by
        rcases List.mem_cons.mp h with h0 | h0
        · exact absurd h0.symm h1
        · exact h0
      simp [dictGet, h1]
      exact ih h'

theorem getLastD_mem (q : String) (qs : List String) :
    (q :: qs).getLastD "" ∈ q :: qs := by
  induction qs generalizing q with
  | nil => simp [List.getLastD]
  | cons q' t ih =>
    have hstep : (q :: q' :: t).getLastD "" = (q' :: t).getLastD "" := by
      simp [List.getLastD]
    rw [hstep]
    exact List.mem_cons_of_mem q (ih q')

theorem mem_of_mem_dropLast {l : List String} {x : String}
    (h : x ∈ l.dropLast) : x ∈ l := by
  induction l with
  | nil => simp at h
  | cons a t ih =>
    cases t with
    | nil => simp at h
    | cons b t' =>
      simp [List.dropLast] at h ⊢
      rcases h with h | h
      · left; exact h
      · right
        have := ih h
        simpa using this

/-- A present key makes `get_cell` succeed with the stored cell. -/
theorem get_cell_of_some {g : Grid} {k : String} {c : Cell}
    (h : dictGet g k = some c) : get_cell g k = .ok c := by
  simp [get_cell, h]

/-- A missing key makes `get_cell` raise `KeyError` (the `IndexError`
handler does not fire). -/
theorem get_cell_of_none {g : Grid} {k : String}
    (h : dictGet g k = none) : get_cell g k = .error .keyError := by
  simp [get_cell, h]

/- ------------------------------------------------------------------ -/
/- Claim theorems: the concrete computations.                          -/
/- ------------------------------------------------------------------ -/

/-- C10: for every key absent from the grid, `Sheet.get_cell` raises
`KeyError` rather than `InvalidReferenceError`; the `InvalidReferenceError`
branch of `get_cell` is unreachable for every input, because its handler
catches `IndexError`, which the dict lookup never raises. -/
theorem claim_C10_get_cell_raises_keyerror :
    (∀ (g : Grid) (k : String), dictGet g k = none → get_cell g k = .error .keyError) ∧
    (∀ (g : Grid) (k : String), get_cell g k ≠ .error .invalidReference) := by
  constructor
  · intro g k h
    exact get_cell_of_none h
  · intro g k h
    cases hg : dictGet g k with
    | none => rw [get_cell_of_none hg] at h; exact Err.noConfusion (Except.error.inj h)
    | some c => rw [get_cell_of_some hg] at h; exact Except.noConfusion h

/-- Witness for C10 at the concrete missing key `Z9` of the empty grid. -/
theorem claim_C10_witness : get_cell [] "Z9" = .error .keyError :=
  claim_C10_get_cell_raises_keyerror.1 [] "Z9" rfl

/-- C8: a row that splits into more than 26 comma-separated fields fails
with `ColumnNumberLargerThanAlphabetError` (the spec's ColumnOverflowError),
whatever the fields contain, and the whole build aborts at that row before
any of its cells is parsed into the grid. -/
theorem claim_C8_column_overflow (g : Grid) (row_num : Nat) (row : String)
    (h : 26 < (splitOnChar ',' (stripNL row)).length) :
    parse_row g row_num row = .error .columnNumberLargerThanAlphabet ∧
    ∀ (g' : Grid) (n : Nat) (rest : List String),
      build_rows g' n (row :: rest) = .error .columnNumberLargerThanAlphabet := by
  have hp : parse_row g row_num row = .error .columnNumberLargerThanAlphabet := by
    simp [parse_row, h]
  refine ⟨hp, fun g' n rest => ?_⟩
  have hp' : parse_row g' n row = .error .columnNumberLargerThanAlphabet := by
    simp [parse_row, h]
  simp [build_rows, hp']

/-- Witness for C8: a 27-field row whose first field is even a malformed
cell (`"1 2"`); the failure is the column overflow, not the cell error,
showing no cell of the row was parsed. -/
theorem claim_C8_witness :
    parse_row [] 1 "1 2,,,,,,,,,,,,,,,,,,,,,,,,,," = .error .columnNumberLargerThanAlphabet :=
  (claim_C8_column_overflow [] 1 "1 2,,,,,,,,,,,,,,,,,,,,,,,,,," (by decide)).1

/-- C9: an expression cell whose operator is `/` and whose divisor operand
evaluates to zero fails with `ZeroDivisionError` (given the left operand
evaluates at all), and the error propagates uncaught through the whole
pipeline, as on the sheet `"4 0 /"`. -/
theorem claim_C9_division_by_zero :
    (∀ (g : Grid) (fuel : Nat) (o1 o2 : Operand) (v1 : Rat),
      evalOp g fuel o1 = .ok (.num v1) → evalOp g fuel o2 = .ok (.num 0) →
      evalCell g fuel (.expr "/" o1 o2) = .error .zeroDivision) ∧
    run_pipeline ["4 0 /"] 10 = .error .zeroDivision := by
  constructor
  · intro g fuel o1 o2 v1 h1 h2
    simp [evalCell, evalCellWith, evalExprWith, h1, h2, exprCombine]
  · rfl

/-- Witness for C9 at the parsed cell of `"4 0 /"`. -/
theorem claim_C9_witness :
    evalCell [] 1 (.expr "/" (.num 4) (.num 0)) = .error .zeroDivision :=
  claim_C9_division_by_zero.1 [] 1 (.num 4) (.num 0) 4 rfl rfl

/-- C5: the claim says an empty cell (zero tokens) or a leading textual
zero yields `Operand(0)`.  In the code the `equates_to_zero` test is inert:
`split` never returns zero tokens (`""` splits to `[""]`), and the
comparison of a `str` token with the integer `0` is always `False`; an
empty cell therefore parses as a *reference to the empty key*, which later
fails validation, as on the sheet `",5"`. -/
theorem claim_C5_blank_cell_is_reference_not_zero :
    get_parsed_cell "" = .ok (.op (.ref "")) ∧
    Cell.op (Operand.ref "") ≠ Cell.op (.num 0) ∧
    splitOnChar ' ' (pyStrip "") = [""] ∧
    (∀ s : String, pyStrEqIntZero s = false) ∧
    (∀ fuel : Nat, run_pipeline [",5"] fuel = .error .invalidReference) := by
  refine ⟨rfl, by decide, rfl, fun _ => rfl, fun fuel => rfl⟩

/-- On the cyclic grid of `c1Rows`, reference resolution never terminates:
at every fuel, evaluating `A1` or `B1` exhausts the fuel (the model of
Python's unbounded mutual recursion). -/
theorem c1_eval_diverges : ∀ fuel : Nat,
    evalOp c1Grid fuel (.ref "A1") = .error .recursionLimit ∧
    evalOp c1Grid fuel (.ref "B1") = .error .recursionLimit := by
  intro fuel
  induction fuel with
  | zero => exact ⟨rfl, rfl⟩
  | succ n ih =>
    obtain ⟨ihA, ihB⟩ := ih
    constructor
    · have hg : get_cell c1Grid "A1" = .ok (.expr "+" (.ref "B1") (.ref "C1")) := rfl
      simp [evalOp, evalOpStep, resolveAdopt, hg, evalCellWith, evalExprWith, exprCombine, ihB]
    · have hg : get_cell c1Grid "B1" = .ok (.op (.ref "A1")) := rfl
      simp [evalOp, evalOpStep, resolveAdopt, hg, evalCellWith, wrapOperand, ihA]

/-- C1: the claim says every sheet with a transitively self-referencing cell
fails validation with `CircularDependencyError` and is never evaluated.  On
the sheet `c1Rows` the cells `A1` and `B1` reference each other (a cycle),
yet validation succeeds — the always-true membership test of `_sort`
(`dependency_key not in self.dependency_graph.values()`, a string compared
against lists) enqueues `A1` as soon as its dependency `C1` resolves, so
the queue drains the cycle's edges — and evaluation is then attempted and
recurses forever. -/
theorem claim_C1_cycle_escapes_validation :
    build_cell_graph c1Rows = .ok c1Grid ∧
    dictGet c1Grid "A1" = some (.expr "+" (.ref "B1") (.ref "C1")) ∧
    "B1" ∈ (Cell.expr "+" (.ref "B1") (.ref "C1")).dependencies ∧
    dictGet c1Grid "B1" = some (.op (.ref "A1")) ∧
    "A1" ∈ (Cell.op (.ref "A1")).dependencies ∧
    (∃ dg sorted, validate c1Grid (build_dependency_graph c1Grid) 20 = .ok (dg, sorted)) ∧
    (∀ fuel, evalOp c1Grid fuel (.ref "A1") = .error .recursionLimit) ∧
    run_pipeline c1Rows 30 = .error .recursionLimit := by
  exact ⟨rfl, rfl, by decide, rfl, by decide, ⟨_, _, rfl⟩,
    fun fuel => (c1_eval_diverges fuel).1, rfl⟩

/-- C2: the claim says the processing order of every validated acyclic sheet
puts each cell before all cells depending on it.  On the acyclic sheet
`c2Rows` (`A1 = 5`, `B1 = "A1 C1 +"`, `C1 = 7`), validation succeeds but the
produced order is `C1, B1, B1, A1, B1, B1`: `B1` appears (four times) and
before its dependency `A1`, because the broken membership test enqueues a
dependent as soon as any one of its dependencies is processed. -/
theorem claim_C2_order_not_topological :
    (∃ dg sorted, run_validate c2Rows 20 =
        .ok ([("A1", .op (.num 5)), ("B1", .expr "+" (.ref "A1") (.ref "C1")),
              ("C1", .op (.num 7))], dg, sorted) ∧
      sorted.map Prod.fst = ["C1", "B1", "B1", "A1", "B1", "B1"]) ∧
    "A1" ∈ (Cell.expr "+" (.ref "A1") (.ref "C1")).dependencies ∧
    List.indexOf "B1" ["C1", "B1", "B1", "A1", "B1", "B1"] <
      List.indexOf "A1" ["C1", "B1", "B1", "A1", "B1", "B1"] := by
  exact ⟨⟨_, _, rfl, rfl⟩, by decide, by decide⟩

/-- C6 counterexample: the sheet `A1 = "B1"`, `B1 = "1 2 %"` is acyclic and
passes validation, and `A1`'s sole content is a reference to `B1`; but
evaluating `A1` raises `AttributeError` (it reads `.value` off the `None`
that `B1`'s unhandled operator returns) while evaluating `B1` returns that
`None` — the two evaluations are not equal. -/
theorem claim_C6_counterexample :
    build_cell_graph ["B1,1 2 %"] = .ok c6xGrid ∧
    (∃ dg sorted, run_validate ["B1,1 2 %"] 10 = .ok (c6xGrid, dg, sorted)) ∧
    dictGet c6xGrid "A1" = some (.op (.ref "B1")) ∧
    evalCellAt c6xGrid 10 "A1" = .error .attributeError ∧
    evalCellAt c6xGrid 10 "B1" = .ok none ∧
    (Except.error Err.attributeError : Except Err (Option Operand)) ≠ .ok none := by
  exact ⟨rfl, ⟨_, _, rfl⟩, rfl, rfl, rfl, fun h => Except.noConfusion h⟩

/-- C4 counterexample: the literal sheet `"5"` renders as `"5.0,"`, not as
its input token `"5"` — `CellOperand.__init__` converts every literal to a
float and rendering prints the float — and the claim's own example
`"5,3\nA1 B1 +,10"` renders as `"5.0,3.0,\n8.0,10.0,"`, not the claimed
`"5,3,\n8,10,"`.  The numeric values, not the text, survive the trip. -/
theorem claim_C4_counterexample :
    run_pipeline ["5"] 5 = .ok [("A1", Cell.op (.num 5))] ∧
    get_plaintext_lines [("A1", Cell.op (.num 5))] = .ok "5.0," ∧
    "5.0," ≠ "5," ∧
    run_pipeline ["5,3", "A1 B1 +,10"] 10 =
      .ok [("A1", Cell.op (.num 5)), ("B1", Cell.op (.num 3)),
           ("A2", Cell.op (.num 8)), ("B2", Cell.op (.num 10))] ∧
    get_plaintext_lines
      [("A1", Cell.op (.num 5)), ("B1", Cell.op (.num 3)),
       ("A2", Cell.op (.num 8)), ("B2", Cell.op (.num 10))] = .ok "5.0,3.0,\n8.0,10.0," ∧
    ("5.0,3.0,\n8.0,10.0," : String) ≠ "5,3,\n8,10," := by
  have h8 : (5 : Rat) + 3 = 8 := by norm_num
  refine ⟨rfl, rfl, by decide, ?_, rfl, by decide⟩
  have h : run_pipeline ["5,3", "A1 B1 +,10"] 10 =
      .ok [("A1", Cell.op (.num 5)), ("B1", Cell.op (.num 3)),
           ("A2", Cell.op (.num (5 + 3))), ("B2", Cell.op (.num 10))] := rfl
  rw [h, h8]

/- ------------------------------------------------------------------ -/
/- Dependency-graph key lemmas (towards C6 and C7).                    -/
/- ------------------------------------------------------------------ -/

theorem hasKey_add_dependency_self (dg : DepGraph) (ck dep : String) :
    (dictGet (add_dependency dg ck dep) dep).isSome := by
  have hstep : ∀ v : List String, (dictGet (dictSet dg dep v) dep).isSome := by
    intro v
    rw [dictGet_dictSet]
    simp
  cases hd : dictGet dg dep with
  | none => simpa [add_dependency, hd] using hstep _
  | some l =>
    cases l with
    | nil => simpa [add_dependency, hd] using hstep _
    | cons a t => simpa [add_dependency, hd] using hstep _

theorem hasKey_add_dependency_mono {dg : DepGraph} {x : String} (ck dep : String)
    (h : (dictGet dg x).isSome) : (dictGet (add_dependency dg ck dep) x).isSome := by
  have hstep : ∀ v : List String, (dictGet (dictSet dg dep v) x).isSome := by
    intro v
    rw [dictGet_dictSet]
    split
    · rfl
    · exact h
  cases hd : dictGet dg dep with
  | none => simpa [add_dependency, hd] using hstep _
  | some l =>
    cases l with
    | nil => simpa [add_dependency, hd] using hstep _
    | cons a t => simpa [add_dependency, hd] using hstep _

theorem hasKey_add_deps_mono (ck : String) :
    ∀ (ds : List String) (dg : DepGraph) (x : String),
      (dictGet dg x).isSome → (dictGet (add_deps ck dg ds) x).isSome := by
  intro ds
  induction ds with
  | nil =>
    intro dg x h
    simpa [add_deps] using h
  | cons d rest ih =>
    intro dg x h
    show (dictGet (add_deps ck (add_dependency dg ck d) rest) x).isSome
    exact ih _ x (hasKey_add_dependency_mono ck d h)

theorem hasKey_add_deps_of_mem (ck : String) :
    ∀ (ds : List String) (dg : DepGraph) (d : String), d ∈ ds →
      (dictGet (add_deps ck dg ds) d).isSome := by
  intro ds
  induction ds with
  | nil =>
    intro dg d h
    simp at h
  | cons a rest ih =>
    intro dg d h
    show (dictGet (add_deps ck (add_dependency dg ck a) rest) d).isSome
    rcases List.mem_cons.mp h with h0 | h0
    · subst h0
      exact hasKey_add_deps_mono ck rest _ d (hasKey_add_dependency_self dg ck d)
    · exact ih _ d h0

theorem hasKey_build_dep_entries_mono :
    ∀ (l : Grid) (dg : DepGraph) (x : String),
      (dictGet dg x).isSome → (dictGet (build_dep_entries dg l) x).isSome := by
  intro l
  induction l with
  | nil =>
    intro dg x h
    simpa [build_dep_entries] using h
  | cons p rest ih =>
    intro dg x h
    obtain ⟨k, c⟩ := p
    show (dictGet (build_dep_entries (add_deps k dg c.dependencies) rest) x).isSome
    exact ih _ x (hasKey_add_deps_mono k c.dependencies dg x h)

theorem hasKey_build_dep_entries :
    ∀ (l : Grid) (dg : DepGraph) (k : String) (c : Cell) (d : String),
      (k, c) ∈ l → d ∈ c.dependencies →
      (dictGet (build_dep_entries dg l) d).isSome := by
  intro l
  induction l with
  | nil =>
    intro dg k c d h _
    simp at h
  | cons p rest ih =>
    intro dg k c d hmem hd
    obtain ⟨k', c'⟩ := p
    show (dictGet (build_dep_entries (add_deps k' dg c'.dependencies) rest) d).isSome
    rcases List.mem_cons.mp hmem with h0 | h0
    · injection h0 with hk hc
      subst hk
      subst hc
      exact hasKey_build_dep_entries_mono rest _ d
        (hasKey_add_deps_of_mem k c.dependencies dg d hd)
    · exact ih _ k c d h0 hd

theorem check_references_ok (g : Grid) :
    ∀ dg : DepGraph, check_references g dg = .ok () →
      ∀ x l, dictGet dg x = some l → (dictGet g x).isSome := by
  intro dg
  induction dg with
  | nil =>
    intro _ x l hx
    simp [dictGet] at hx
  | cons p t ih =>
    intro h x l hx
    obtain ⟨key, v⟩ := p
    cases hgk : dictGet g key with
    | none => simp [check_references, hgk] at h
    | some w =>
      simp [check_references, hgk] at h
      by_cases hxk : key = x
      · subst hxk
        simp [hgk]
      · simp [dictGet, hxk] at hx
        exact ih h x l hx

theorem check_references_error (g : Grid) :
    ∀ dg : DepGraph, (∃ p : String × List String, p ∈ dg ∧ dictGet g p.1 = none) →
      check_references g dg = .error .invalidReference := by
  intro dg
  induction dg with
  | nil =>
    intro h
    obtain ⟨p, hp, _⟩ := h
    simp at hp
  | cons q t ih =>
    intro h
    obtain ⟨p, hp, hnone⟩ := h
    obtain ⟨key, v⟩ := q
    cases hgk : dictGet g key with
    | none => simp [check_references, hgk]
    | some w =>
      simp [check_references, hgk]
      apply ih
      rcases List.mem_cons.mp hp with h0 | h0
      · rw [h0] at hnone
        simp at hnone
        rw [hnone] at hgk
        exact Option.noConfusion hgk
      · exact ⟨p, h0, hnone⟩

/-- Reference validity established by a successful `_check_references`:
every dependency of every grid cell is itself a grid key (every referenced
key is a dependency-graph key, and those were all checked). -/
theorem refValid_of_check {g : Grid}
    (h : check_references g (build_dependency_graph g) = .ok ()) :
    ∀ k c d, dictGet g k = some c → d ∈ c.dependencies → (dictGet g d).isSome := by
  intro k c d hk hd
  have hkey : (dictGet (build_dependency_graph g) d).isSome :=
    hasKey_build_dep_entries g [] k c d (dictGet_mem hk) hd
  obtain ⟨l, hl⟩ := Option.isSome_iff_exists.mp hkey
  exact check_references_ok g _ h d l hl

/-- C7: for every sheet whose grid contains a reference to a key absent from
the grid, validation fails with `InvalidReferenceError` (the reference check
runs first inside `validate`), and the pipeline therefore fails before
`Sheet.evaluate` touches any cell. -/
theorem claim_C7_invalid_reference_before_evaluation
    (lines : List String) (g : Grid) (fuel : Nat)
    (hb : build_cell_graph lines = .ok g)
    (href : ∃ k c d, dictGet g k = some c ∧ d ∈ c.dependencies ∧ dictGet g d = none) :
    validate g (build_dependency_graph g) fuel = .error .invalidReference ∧
    run_pipeline lines fuel = .error .invalidReference := by
  obtain ⟨k, c, d, hk, hd, hdnone⟩ := href
  have hkey : (dictGet (build_dependency_graph g) d).isSome :=
    hasKey_build_dep_entries g [] k c d (dictGet_mem hk) hd
  obtain ⟨l, hl⟩ := Option.isSome_iff_exists.mp hkey
  have hchk : check_references g (build_dependency_graph g) = .error .invalidReference :=
    check_references_error g _ ⟨(d, l), dictGet_mem hl, hdnone⟩
  have hval : validate g (build_dependency_graph g) fuel = .error .invalidReference := by
    simp [validate, hchk]
  exact ⟨hval, by simp [run_pipeline, run_validate, hb, hval]⟩

/-- Witness for C7: the sheet `"Z9"` (its only cell references the absent
key `Z9`). -/
theorem claim_C7_witness :
    validate [("A1", Cell.op (.ref "Z9"))]
        (build_dependency_graph [("A1", Cell.op (.ref "Z9"))]) 3 = .error .invalidReference ∧
    run_pipeline ["Z9"] 3 = .error .invalidReference :=
  claim_C7_invalid_reference_before_evaluation ["Z9"] [("A1", Cell.op (.ref "Z9"))] 3 rfl
    ⟨"A1", Cell.op (.ref "Z9"), "Z9", rfl, by decide, rfl⟩

/-- C3: the sheet `"1 2 %"` passes validation and evaluation without error,
yet its final grid entry is the Python `None` returned by the unhandled
operator `%` — not an `Operand` — and rendering it then raises
`AttributeError`. -/
theorem claim_C3_unhandled_operator_leaves_none :
    run_pipeline ["1 2 %"] 5 = .ok [("A1", Cell.pynone)] ∧
    (∀ o : Operand, Cell.pynone ≠ Cell.op o) ∧
    get_plaintext_lines [("A1", Cell.pynone)] = .error .attributeError := by
  refine ⟨rfl, fun o h => Cell.noConfusion h, rfl⟩

/- ------------------------------------------------------------------ -/
/- C4: literal-only sheets pass through the pipeline unchanged.        -/
/- ------------------------------------------------------------------ -/

theorem deps_nil_of_literal {g : Grid} (h : AllLiteral g) :
    ∀ p : String × Cell, p ∈ g → p.2.dependencies = [] := by
  intro p hp
  obtain ⟨v, hv⟩ := h p.1 p.2 hp
  rw [hv]
  rfl

theorem build_dep_entries_nil :
    ∀ (l : Grid) (dg : DepGraph), (∀ p : String × Cell, p ∈ l → p.2.dependencies = []) →
      build_dep_entries dg l = dg := by
  intro l
  induction l with
  | nil => intro dg _; rfl
  | cons p rest ih =>
    intro dg h
    obtain ⟨k, c⟩ := p
    have hd : c.dependencies = [] := h (k, c) (List.mem_cons_self _ _)
    show build_dep_entries (add_deps k dg c.dependencies) rest = dg
    rw [hd]
    exact ih dg (fun q hq => h q (List.mem_cons_of_mem _ hq))

theorem keys_without_deps_eq :
    ∀ l : Grid, (∀ p : String × Cell, p ∈ l → p.2.dependencies = []) →
      keys_without_deps l = l.map Prod.fst := by
  intro l
  induction l with
  | nil => intro _; rfl
  | cons p rest ih =>
    intro h
    obtain ⟨k, c⟩ := p
    have hd : c.dependencies = [] := h (k, c) (List.mem_cons_self _ _)
    have hrest := ih (fun q hq => h q (List.mem_cons_of_mem _ hq))
    simp [keys_without_deps, hd, hrest]

theorem sort_loop_empty_dg (g : Grid) :
    ∀ (fuel : Nat) (queue : List String) (sorted : List (String × Cell)),
      queue.length ≤ fuel →
      (∀ k, k ∈ queue → (dictGet g k).isSome) →
      ∃ sorted', sort_loop g fuel [] queue sorted = .ok ([], sorted') ∧
        ∀ p : String × Cell, p ∈ sorted' → p ∈ sorted ∨ dictGet g p.1 = some p.2 := by
  intro fuel
  induction fuel with
  | zero =>
    intro queue sorted hlen _
    cases queue with
    | nil => exact ⟨sorted, rfl, fun p hp => Or.inl hp⟩
    | cons q qs => simp at hlen
  | succ n ih =>
    intro queue sorted hlen hmem
    cases queue with
    | nil => exact ⟨sorted, rfl, fun p hp => Or.inl hp⟩
    | cons q qs =>
      have hprev : (q :: qs).getLastD "" ∈ q :: qs := getLastD_mem q qs
      obtain ⟨c, hc⟩ := Option.isSome_iff_exists.mp (hmem _ hprev)
      have hgc : get_cell g ((q :: qs).getLastD "") = .ok c := get_cell_of_some hc
      have hlen' : (q :: qs).dropLast.length ≤ n := by
        simp [List.length_dropLast] at hlen ⊢
        omega
      have hmem' : ∀ k, k ∈ (q :: qs).dropLast → (dictGet g k).isSome :=
        fun k hk => hmem k (mem_of_mem_dropLast hk)
      obtain ⟨sorted', hok, hprop⟩ :=
        ih (q :: qs).dropLast (sorted ++ [((q :: qs).getLastD "", c)]) hlen' hmem'
      refine ⟨sorted', ?_, ?_⟩
      · show sort_loop g (n + 1) [] (q :: qs) sorted = .ok ([], sorted')
        have hdrain : drain_loop g n [] ((q :: qs).getLastD "") (q :: qs).dropLast =
            .ok ([], (q :: qs).dropLast) := by
          cases n <;> rfl
        simp only [sort_loop, hgc, hdrain]
        exact hok
      · intro p hp
        rcases hprop p hp with h0 | h0
        · rcases List.mem_append.mp h0 with h1 | h1
          · exact Or.inl h1
          · simp at h1
            rw [h1]
            exact Or.inr hc
        · exact Or.inr h0

theorem sheet_evaluate_literal (fuel : Nat) :
    ∀ (sorted : List (String × Cell)) (g : Grid),
      AllLiteral g →
      (∀ p : String × Cell, p ∈ sorted → dictGet g p.1 = some p.2) →
      sheet_evaluate fuel g sorted = .ok g := by
  intro sorted
  induction sorted with
  | nil => intro g _ _; rfl
  | cons p rest ih =>
    intro g hlit hmem
    obtain ⟨k, c⟩ := p
    have hk : dictGet g k = some c := hmem (k, c) (List.mem_cons_self _ _)
    obtain ⟨v, hv⟩ := hlit k c (dictGet_mem hk)
    subst hv
    have heval : evalCell g fuel (Cell.op (.num v)) = .ok (some (.num v)) := by
      cases fuel <;> simp [evalCell, evalCellWith, evalOp, wrapOperand]
    show sheet_evaluate fuel g ((k, Cell.op (.num v)) :: rest) = .ok g
    simp only [sheet_evaluate, heval]
    rw [dictSet_self hk]
    exact ih g hlit (fun q hq => hmem q (List.mem_cons_of_mem _ hq))

/-- C4 amended: for every sheet whose cells are all numeric literal
operands, the whole pipeline succeeds and the evaluated grid equals the
parsed grid — the numeric values round-trip unchanged (the rendered *text*
does not: `claim_C4_counterexample` shows `"5"` renders as `"5.0,"`). -/
theorem claim_C4_literal_values_unchanged (lines : List String) (g : Grid)
    (hb : build_cell_graph lines = .ok g) (hlit : AllLiteral g) :
    ∃ fuel, run_pipeline lines fuel = .ok g := by
  have hdeps : ∀ p : String × Cell, p ∈ g → p.2.dependencies = [] := deps_nil_of_literal hlit
  have hdg : build_dependency_graph g = [] := build_dep_entries_nil g [] hdeps
  have hkeys : keys_without_deps g = g.map Prod.fst := keys_without_deps_eq g hdeps
  obtain ⟨sorted', hok, hprop⟩ :=
    sort_loop_empty_dg g g.length (g.map Prod.fst) [] (by simp)
      (fun k hk => mem_keys_isSome hk)
  have hsort : sort g [] g.length = .ok ([], sorted') := by
    simp only [sort, hkeys]
    exact hok
  have hval : validate g [] g.length = .ok ([], sorted') := by
    simp [validate, check_references, hsort]
  have hprop' : ∀ p : String × Cell, p ∈ sorted' → dictGet g p.1 = some p.2 := by
    intro p hp
    rcases hprop p hp with h0 | h0
    · simp at h0
    · exact h0
  have heval : sheet_evaluate g.length g sorted' = .ok g :=
    sheet_evaluate_literal _ sorted' g hlit hprop'
  refine ⟨g.length, ?_⟩
  simp only [run_pipeline, run_validate, hb, hdg, hval, heval]

/-- Witness for C4 amended at the literal sheet `"5,3"`. -/
theorem claim_C4_witness :
    ∃ fuel, run_pipeline ["5,3"] fuel =
      .ok [("A1", Cell.op (.num 5)), ("B1", Cell.op (.num 3))] :=
  claim_C4_literal_values_unchanged ["5,3"]
    [("A1", Cell.op (.num 5)), ("B1", Cell.op (.num 3))] rfl
    (by
      intro k c h
      rcases List.mem_cons.mp h with h0 | h0
      · injection h0 with hk hc
        exact ⟨5, hc⟩
      · rcases List.mem_cons.mp h0 with h1 | h1
        · injection h1 with hk hc
          exact ⟨3, hc⟩
        · simp at h1)

/- ------------------------------------------------------------------ -/
/- C6: evaluator shape, monotonicity, termination.                     -/
/- ------------------------------------------------------------------ -/

/-- A successful operand evaluation always yields a numeric operand: the
`while self.is_reference` loop only exits on a non-reference. -/
theorem evalOp_ok_num (g : Grid) :
    ∀ (fuel : Nat) (o o' : Operand), evalOp g fuel o = .ok o' → ∃ v, o' = .num v := by
  intro fuel
  induction fuel with
  | zero =>
    intro o o' h
    cases o with
    | num v =>
      simp only [evalOp] at h
      injection h with h1
      exact ⟨v, h1.symm⟩
    | ref k => simp [evalOp] at h
  | succ n ih =>
    intro o o' h
    cases o with
    | num v =>
      simp only [evalOp] at h
      injection h with h1
      exact ⟨v, h1.symm⟩
    | ref k =>
      simp only [evalOp] at h
      cases hg : get_cell g k with
      | error e => rw [hg] at h; simp [evalOpStep] at h
      | ok c =>
        rw [hg] at h
        have h' : resolveAdopt (evalOp g n) (evalCellWith (evalOp g n) c) = .ok o' := h
        cases hec : evalCellWith (evalOp g n) c with
        | error e => rw [hec] at h'; simp [resolveAdopt] at h'
        | ok w =>
          rw [hec] at h'
          cases w with
          | none => simp [resolveAdopt] at h'
          | some o0 =>
            cases o0 with
            | num v =>
              have h'' : Except.ok (Operand.num v) = Except.ok o' := h'
              injection h'' with h1
              exact ⟨v, h1.symm⟩
            | ref k2 =>
              have h'' : evalOp g n (.ref k2) = .ok o' := h'
              exact ih _ o' h''

/-- Congruence of `evalCellWith` under an evaluator that agrees on all
non-fuel-exhausted results. -/
theorem evalCellWith_mono {ev ev' : Operand → Except Err Operand}
    (hmono : ∀ o r, ev o = r → r ≠ .error .recursionLimit → ev' o = r) :
    ∀ c r, evalCellWith ev c = r → r ≠ .error .recursionLimit → evalCellWith ev' c = r := by
  intro c r h hr
  cases c with
  | op o =>
    simp only [evalCellWith] at h ⊢
    cases ho : ev o with
    | error e =>
      rw [ho] at h
      have h' : (Except.error e : Except Err (Option Operand)) = r := h
      subst h'
      have he : e ≠ Err.recursionLimit := fun hh => hr (by rw [hh])
      rw [hmono o _ ho (fun hh => he (Except.error.inj hh))]
      rfl
    | ok o' =>
      rw [ho] at h
      rw [hmono o _ ho (fun hh => Except.noConfusion hh)]
      exact h
  | expr operator o1 o2 =>
    simp only [evalCellWith, evalExprWith] at h ⊢
    cases h1 : ev o1 with
    | error e =>
      rw [h1] at h
      have h' : (Except.error e : Except Err (Option Operand)) = r := h
      subst h'
      have he : e ≠ Err.recursionLimit := fun hh => hr (by rw [hh])
      rw [hmono o1 _ h1 (fun hh => he (Except.error.inj hh))]
      rfl
    | ok w1 =>
      rw [h1] at h
      rw [hmono o1 _ h1 (fun hh => Except.noConfusion hh)]
      cases w1 with
      | ref x => exact h
      | num v1 =>
        cases h2 : ev o2 with
        | error e =>
          rw [h2] at h
          have h' : (Except.error e : Except Err (Option Operand)) = r := h
          subst h'
          have he : e ≠ Err.recursionLimit := fun hh => hr (by rw [hh])
          rw [hmono o2 _ h2 (fun hh => he (Except.error.inj hh))]
          rfl
        | ok w2 =>
          rw [h2] at h
          rw [hmono o2 _ h2 (fun hh => Except.noConfusion hh)]
          exact h
  | pynone =>
    simpa [evalCellWith] using h

/-- Fuel monotonicity: a result other than fuel exhaustion is stable under
adding fuel. -/
theorem evalOp_mono (g : Grid) :
    ∀ (fuel : Nat) (o : Operand) (r : Except Err Operand),
      evalOp g fuel o = r → r ≠ .error .recursionLimit → evalOp g (fuel + 1) o = r := by
  intro fuel
  induction fuel with
  | zero =>
    intro o r h hr
    cases o with
    | num v =>
      simp only [evalOp] at h ⊢
      exact h
    | ref k =>
      simp only [evalOp] at h
      rw [← h] at hr
      exact absurd rfl hr
  | succ n ih =>
    intro o r h hr
    cases o with
    | num v =>
      simp only [evalOp] at h ⊢
      exact h
    | ref k =>
      simp only [evalOp] at h ⊢
      cases hg : get_cell g k with
      | error e =>
        rw [hg] at h
        simp only [evalOpStep] at h ⊢
        exact h
      | ok c =>
        rw [hg] at h
        have h' : resolveAdopt (evalOp g n) (evalCellWith (evalOp g n) c) = r := h
        show resolveAdopt (evalOp g (n + 1)) (evalCellWith (evalOp g (n + 1)) c) = r
        cases hec : evalCellWith (evalOp g n) c with
        | error e =>
          rw [hec] at h'
          by_cases heRL : e = Err.recursionLimit
          · subst heRL
            have h'' : (Except.error Err.recursionLimit : Except Err Operand) = r := h'
            rw [← h''] at hr
            exact absurd rfl hr
          · have hec' : evalCellWith (evalOp g (n + 1)) c = .error e :=
              evalCellWith_mono (fun o0 r0 h0 hr0 => ih o0 r0 h0 hr0) c _ hec
                (fun hh => heRL (Except.error.inj hh))
            rw [hec']
            exact h'
        | ok w =>
          rw [hec] at h'
          have hec' : evalCellWith (evalOp g (n + 1)) c = .ok w :=
            evalCellWith_mono (fun o0 r0 h0 hr0 => ih o0 r0 h0 hr0) c _ hec
              (fun hh => Except.noConfusion hh)
          rw [hec']
          cases w with
          | none => exact h'
          | some o0 =>
            cases o0 with
            | num v => exact h'
            | ref k2 =>
              have h'' : evalOp g n (.ref k2) = r := h'
              show evalOp g (n + 1) (.ref k2) = r
              exact ih _ r h'' hr

/-- Fuel monotonicity, `≤` form. -/
theorem evalOp_mono_le (g : Grid) {fuel fuel' : Nat} (hle : fuel ≤ fuel')
    {o : Operand} {r : Except Err Operand}
    (h : evalOp g fuel o = r) (hr : r ≠ .error .recursionLimit) : evalOp g fuel' o = r := by
  induction hle with
  | refl => exact h
  | step _ ih => exact evalOp_mono g _ o r ih hr

/-- Fuel monotonicity for cell evaluation, `≤` form. -/
theorem evalCell_mono_le (g : Grid) {fuel fuel' : Nat} (hle : fuel ≤ fuel')
    {c : Cell} {r : Except Err (Option Operand)}
    (h : evalCell g fuel c = r) (hr : r ≠ .error .recursionLimit) : evalCell g fuel' c = r := by
  induction hle with
  | refl => exact h
  | step _ ih =>
    exact evalCellWith_mono (fun o0 r0 h0 hr0 => evalOp_mono g _ o0 r0 h0 hr0) c r ih hr

/-- The operator dispatch of `exprCombine` on two numeric operands never
returns the reference shape and is numeric whenever it returns an operand. -/
theorem exprCombine_num_ok (operator : String) (v1 v2 : Rat) (o : Operand)
    (h : exprCombine operator (.ok (.num v1)) (.ok (.num v2)) = .ok (some o)) :
    ∃ v, o = .num v := by
  simp only [exprCombine] at h
  split_ifs at h <;>
    first
    | exact Except.noConfusion h
    | (injection h with h1
       first
       | exact Option.noConfusion h1
       | (injection h1 with h2
          exact ⟨_, h2.symm⟩))

/-- A successful cell evaluation that returns an operand returns a numeric
one. -/
theorem evalCell_ok_num (g : Grid) (fuel : Nat) (c : Cell) (o : Operand)
    (h : evalCell g fuel c = .ok (some o)) : ∃ v, o = .num v := by
  cases c with
  | op o0 =>
    simp only [evalCell, evalCellWith] at h
    cases ho : evalOp g fuel o0 with
    | error e => rw [ho] at h; simp [wrapOperand] at h
    | ok o' =>
      rw [ho] at h
      obtain ⟨v, hv⟩ := evalOp_ok_num g fuel o0 o' ho
      have h' : Except.ok (some o') = (Except.ok (some o) : Except Err (Option Operand)) := h
      injection h' with h1
      injection h1 with h2
      exact ⟨v, by rw [← h2, hv]⟩
  | expr operator o1 o2 =>
    simp only [evalCell, evalCellWith, evalExprWith] at h
    cases h1 : evalOp g fuel o1 with
    | error e => rw [h1] at h; simp [exprCombine] at h
    | ok w1 =>
      rw [h1] at h
      cases w1 with
      | ref x => simp [exprCombine] at h
      | num v1 =>
        cases h2 : evalOp g fuel o2 with
        | error e => rw [h2] at h; simp [exprCombine] at h
        | ok w2 =>
          rw [h2] at h
          cases w2 with
          | ref x => simp [exprCombine] at h
          | num v2 => exact exprCombine_num_ok operator v1 v2 o h
  | pynone => simp [evalCell, evalCellWith] at h

/-- With a handled operator, the dispatch on two numeric operands never
returns the Python `None`. -/
theorem exprCombine_not_none (operator : String) (v1 v2 : Rat)
    (hop : operator = "+" ∨ operator = "-" ∨ operator = "*" ∨ operator = "/") :
    exprCombine operator (.ok (.num v1)) (.ok (.num v2)) ≠ .ok none := by
  intro h
  simp only [exprCombine] at h
  rcases hop with h4 | h4 | h4 | h4 <;> subst h4
  · rw [if_pos rfl] at h
    injection h with h1
    exact Option.noConfusion h1
  · rw [if_neg (by decide), if_pos rfl] at h
    injection h with h1
    exact Option.noConfusion h1
  · rw [if_neg (by decide), if_neg (by decide), if_pos rfl] at h
    injection h with h1
    exact Option.noConfusion h1
  · rw [if_neg (by decide), if_neg (by decide), if_neg (by decide), if_pos rfl] at h
    by_cases hz : v2 = 0
    · rw [if_pos hz] at h
      exact Except.noConfusion h
    · rw [if_neg hz] at h
      injection h with h1
      exact Option.noConfusion h1

/-- With a handled operator, expression evaluation never returns the Python
`None`. -/
theorem evalExprWith_not_none (ev : Operand → Except Err Operand) (operator : String)
    (o1 o2 : Operand)
    (hop : operator = "+" ∨ operator = "-" ∨ operator = "*" ∨ operator = "/") :
    evalExprWith ev operator o1 o2 ≠ .ok none := by
  intro h
  simp only [evalExprWith] at h
  cases h1 : ev o1 with
  | error e => rw [h1] at h; simp [exprCombine] at h
  | ok w1 =>
    rw [h1] at h
    cases w1 with
    | ref x => simp [exprCombine] at h
    | num v1 =>
      cases h2 : ev o2 with
      | error e => rw [h2] at h; simp [exprCombine] at h
      | ok w2 =>
        rw [h2] at h
        cases w2 with
        | ref x => simp [exprCombine] at h
        | num v2 => exact exprCombine_not_none operator v1 v2 hop h

/-- On a grid whose expressions all use handled operators, evaluating a
stored cell never returns `None`. -/
theorem evalCell_not_none (g : Grid) (hops : OpsValid g) (Y : String) (c : Cell)
    (hc : dictGet g Y = some c) : ∀ fuel, evalCell g fuel c ≠ .ok none := by
  intro fuel h
  cases c with
  | op o =>
    simp only [evalCell, evalCellWith] at h
    cases ho : evalOp g fuel o with
    | error e => rw [ho] at h; simp [wrapOperand] at h
    | ok o' => rw [ho] at h; simp [wrapOperand] at h
  | expr operator o1 o2 =>
    exact evalExprWith_not_none (evalOp g fuel) operator o1 o2
      (hops Y operator o1 o2 hc) h
  | pynone =>
    simp [evalCell, evalCellWith] at h

/-- A numeric operand evaluates to itself at every fuel. -/
theorem termOp_num (g : Grid) (v : Rat) : TermOp g (.num v) :=
  ⟨0, .ok (.num v), fun hh => Except.noConfusion hh,
    fun fuel' _ => by cases fuel' <;> simp [evalOp]⟩

/-- A reference to a cell whose evaluation terminates itself terminates
(one extra fuel level for the extra call). -/
theorem termOp_ref (g : Grid) (d : String) (cd : Cell)
    (hc : dictGet g d = some cd) (h : TermCell g cd) : TermOp g (.ref d) := by
  obtain ⟨f, r, hrRL, hst⟩ := h
  have hstep : ∀ m, f ≤ m → evalCellWith (evalOp g m) cd = r := fun m hm => hst m hm
  cases r with
  | error e =>
    have he : e ≠ Err.recursionLimit := fun hh => hrRL (by rw [hh])
    refine ⟨f + 1, .error e, fun hh => he (Except.error.inj hh), fun fuel' hf => ?_⟩
    obtain ⟨m, rfl⟩ : ∃ m, fuel' = m + 1 := ⟨fuel' - 1, by omega⟩
    have hm : f ≤ m := by omega
    simp only [evalOp, evalOpStep, resolveAdopt, get_cell_of_some hc, hstep m hm]
  | ok w =>
    cases w with
    | none =>
      refine ⟨f + 1, .error .attributeError,
        fun hh => Err.noConfusion (Except.error.inj hh), fun fuel' hf => ?_⟩
      obtain ⟨m, rfl⟩ : ∃ m, fuel' = m + 1 := ⟨fuel' - 1, by omega⟩
      have hm : f ≤ m := by omega
      simp only [evalOp, evalOpStep, resolveAdopt, get_cell_of_some hc, hstep m hm]
    | some o =>
      obtain ⟨v, rfl⟩ := evalCell_ok_num g f cd o (hst f le_rfl)
      refine ⟨f + 1, .ok (.num v), fun hh => Except.noConfusion hh, fun fuel' hf => ?_⟩
      obtain ⟨m, rfl⟩ : ∃ m, fuel' = m + 1 := ⟨fuel' - 1, by omega⟩
      have hm : f ≤ m := by omega
      simp only [evalOp, evalOpStep, resolveAdopt, get_cell_of_some hc, hstep m hm]

/-- A cell whose operand sub-nodes all terminate terminates. -/
theorem termCell_from_ops (g : Grid) (c : Cell)
    (h : ∀ o, o ∈ opsOf c → TermOp g o) : TermCell g c := by
  cases c with
  | op o =>
    obtain ⟨f, r, hrRL, hst⟩ := h o (by simp [opsOf])
    cases r with
    | error e =>
      have he : e ≠ Err.recursionLimit := fun hh => hrRL (by rw [hh])
      refine ⟨f, .error e, fun hh => he (Except.error.inj hh), fun fuel' hf => ?_⟩
      show evalCellWith (evalOp g fuel') (.op o) = .error e
      simp only [evalCellWith, hst fuel' hf, wrapOperand]
    | ok o' =>
      refine ⟨f, .ok (some o'), fun hh => Except.noConfusion hh, fun fuel' hf => ?_⟩
      show evalCellWith (evalOp g fuel') (.op o) = .ok (some o')
      simp only [evalCellWith, hst fuel' hf, wrapOperand]
  | expr operator o1 o2 =>
    obtain ⟨f1, r1, h1RL, h1st⟩ := h o1 (by simp [opsOf])
    obtain ⟨f2, r2, h2RL, h2st⟩ := h o2 (by simp [opsOf])
    have h1st' : ∀ fuel', max f1 f2 ≤ fuel' → evalOp g fuel' o1 = r1 :=
      fun fuel' hf => h1st fuel' (le_trans (le_max_left f1 f2) hf)
    have h2st' : ∀ fuel', max f1 f2 ≤ fuel' → evalOp g fuel' o2 = r2 :=
      fun fuel' hf => h2st fuel' (le_trans (le_max_right f1 f2) hf)
    cases r1 with
    | error e =>
      have he : e ≠ Err.recursionLimit := fun hh => h1RL (by rw [hh])
      refine ⟨max f1 f2, .error e, fun hh => he (Except.error.inj hh), fun fuel' hf => ?_⟩
      show evalExprWith (evalOp g fuel') operator o1 o2 = .error e
      simp only [evalExprWith, h1st' fuel' hf, exprCombine]
    | ok w1 =>
      cases w1 with
      | ref x =>
        refine ⟨max f1 f2, .error .typeError,
          fun hh => Err.noConfusion (Except.error.inj hh), fun fuel' hf => ?_⟩
        show evalExprWith (evalOp g fuel') operator o1 o2 = .error .typeError
        simp only [evalExprWith, h1st' fuel' hf, exprCombine]
      | num v1 =>
        cases r2 with
        | error e =>
          have he : e ≠ Err.recursionLimit := fun hh => h2RL (by rw [hh])
          refine ⟨max f1 f2, .error e, fun hh => he (Except.error.inj hh), fun fuel' hf => ?_⟩
          show evalExprWith (evalOp g fuel') operator o1 o2 = .error e
          simp only [evalExprWith, h1st' fuel' hf, h2st' fuel' hf, exprCombine]
        | ok w2 =>
          cases w2 with
          | ref x =>
            refine ⟨max f1 f2, .error .typeError,
              fun hh => Err.noConfusion (Except.error.inj hh), fun fuel' hf => ?_⟩
            show evalExprWith (evalOp g fuel') operator o1 o2 = .error .typeError
            simp only [evalExprWith, h1st' fuel' hf, h2st' fuel' hf, exprCombine]
          | num v2 =>
            refine ⟨max f1 f2,
              (if operator = "+" then .ok (some (.num (v1 + v2)))
               else if operator = "-" then .ok (some (.num (v1 - v2)))
               else if operator = "*" then .ok (some (.num (v1 * v2)))
               else if operator = "/" then
                 (if v2 = 0 then .error .zeroDivision else .ok (some (.num (v1 / v2))))
               else .ok none), ?_, fun fuel' hf => ?_⟩
            · split_ifs <;> intro hh <;>
                first
                | exact Except.noConfusion hh
                | exact Err.noConfusion (Except.error.inj hh)
            · show evalExprWith (evalOp g fuel') operator o1 o2 = _
              simp only [evalExprWith, h1st' fuel' hf, h2st' fuel' hf, exprCombine]
  | pynone =>
    exact ⟨0, .error .attributeError, fun hh => Err.noConfusion (Except.error.inj hh),
      fun fuel' _ => rfl⟩

/-- Reference operands listed by `opsOf` are dependencies of the cell. -/
theorem dep_of_opsOf (c : Cell) (d : String) (h : Operand.ref d ∈ opsOf c) :
    d ∈ c.dependencies := by
  cases c with
  | op o =>
    simp [opsOf] at h
    rw [← h]
    simp [Cell.dependencies, Operand.dependencies]
  | expr operator o1 o2 =>
    simp [opsOf] at h
    rcases h with h | h <;> rw [← h] <;>
      simp [Cell.dependencies, Operand.dependencies]
  | pynone => simp [opsOf] at h

/-- On a reference-valid acyclic grid every stored cell's evaluation
terminates: by strong induction on the cell's rank. -/
theorem eval_terminates (g : Grid) (rank : String → Nat)
    (hrank : ∀ a b c, dictGet g b = some c → a ∈ c.dependencies → rank a < rank b)
    (hrv : ∀ k c d, dictGet g k = some c → d ∈ c.dependencies → (dictGet g d).isSome) :
    ∀ (n : Nat) (k : String) (c : Cell), dictGet g k = some c → rank k ≤ n → TermCell g c := by
  intro n
  induction n with
  | zero =>
    intro k c hk hr
    apply termCell_from_ops
    intro o ho
    cases o with
    | num v => exact termOp_num g v
    | ref d =>
      have hd : d ∈ c.dependencies := dep_of_opsOf c d ho
      have := hrank d k c hk hd
      omega
  | succ n ih =>
    intro k c hk hr
    apply termCell_from_ops
    intro o ho
    cases o with
    | num v => exact termOp_num g v
    | ref d =>
      have hd : d ∈ c.dependencies := dep_of_opsOf c d ho
      obtain ⟨cd, hcd⟩ := Option.isSome_iff_exists.mp (hrv k c d hk hd)
      have hlt : rank d < rank k := hrank d k c hk hd
      exact termOp_ref g d cd hcd (ih d cd hcd (by omega))

/-- C6 amended: on every sheet that passes reference validation, is acyclic,
and whose expression cells all use handled operators (`+ - * /` — the
counterexample `claim_C6_counterexample` forces this extra hypothesis),
every cell `X` whose sole content is a reference to `Y` evaluates exactly as
`Y` does, multi-hop chains included: past some fuel bound the two
evaluations return the same result (the same numeric value, or the same
propagated error). -/
theorem claim_C6_reference_resolution (g : Grid) (X Y : String)
    (hchk : check_references g (build_dependency_graph g) = .ok ())
    (hacy : Acyclic g) (hops : OpsValid g)
    (hX : dictGet g X = some (.op (.ref Y))) :
    ∃ F, ∀ fuel, F ≤ fuel → evalCellAt g fuel X = evalCellAt g fuel Y := by
  have hrv := refValid_of_check hchk
  obtain ⟨rank, hrank⟩ := hacy
  have hYmem : (dictGet g Y).isSome :=
    hrv X _ Y hX (by simp [Cell.dependencies, Operand.dependencies])
  obtain ⟨cY, hcY⟩ := Option.isSome_iff_exists.mp hYmem
  obtain ⟨f, rY, hrRL, hst⟩ := eval_terminates g rank hrank hrv (rank Y) Y cY hcY le_rfl
  have hnotnone : rY ≠ .ok none := by
    intro hh
    have hbad : evalCell g f cY = .ok none := by rw [hst f le_rfl, hh]
    exact evalCell_not_none g hops Y cY hcY f hbad
  refine ⟨f + 1, fun fuel hf => ?_⟩
  obtain ⟨m, rfl⟩ : ∃ m, fuel = m + 1 := ⟨fuel - 1, by omega⟩
  have hm : f ≤ m := by omega
  have hXat : evalCellAt g (m + 1) X = evalCell g (m + 1) (.op (.ref Y)) := by
    simp [evalCellAt, get_cell_of_some hX]
  have hYat : evalCellAt g (m + 1) Y = rY := by
    simp [evalCellAt, get_cell_of_some hcY]
    exact hst (m + 1) (by omega)
  rw [hXat, hYat]
  have hinner : evalCellWith (evalOp g m) cY = rY := hst m hm
  cases rY with
  | error e =>
    have hopY : evalOp g (m + 1) (.ref Y) = .error e := by
      simp only [evalOp, evalOpStep, resolveAdopt, get_cell_of_some hcY, hinner]
    show evalCellWith (evalOp g (m + 1)) (.op (.ref Y)) = .error e
    simp only [evalCellWith, hopY, wrapOperand]
  | ok w =>
    cases w with
    | none => exact absurd rfl hnotnone
    | some o =>
      obtain ⟨v, rfl⟩ := evalCell_ok_num g m cY o hinner
      have hopY : evalOp g (m + 1) (.ref Y) = .ok (.num v) := by
        simp only [evalOp, evalOpStep, resolveAdopt, get_cell_of_some hcY, hinner]
      show evalCellWith (evalOp g (m + 1)) (.op (.ref Y)) = .ok (some (.num v))
      simp only [evalCellWith, hopY, wrapOperand]

/-- Witness for C6 amended at the sheet `A1 = "B1"`, `B1 = "5"`. -/
theorem claim_C6_witness :
    ∃ F, ∀ fuel, F ≤ fuel →
      evalCellAt c6wGrid fuel "A1" = evalCellAt c6wGrid fuel "B1" :=
  claim_C6_reference_resolution c6wGrid "A1" "B1" rfl
    ⟨fun k => if k = "A1" then 1 else 0, by
      intro a b c hb ha
      by_cases h1 : b = "A1"
      · subst h1
        have hc : c = Cell.op (.ref "B1") := by
          have : some (Cell.op (Operand.ref "B1")) = some c := by
            rw [← hb]; rfl
          exact (Option.some.inj this).symm
        subst hc
        simp [Cell.dependencies, Operand.dependencies] at ha
        subst ha
        simp
      · by_cases h2 : b = "B1"
        · subst h2
          have hc : c = Cell.op (.num 5) := by
            have : some (Cell.op (Operand.num 5)) = some c := by
              rw [← hb]; rfl
            exact (Option.some.inj this).symm
          subst hc
          simp [Cell.dependencies, Operand.dependencies] at ha
        · have h1' : ("A1" : String) ≠ b := fun hh => h1 hh.symm
          have h2' : ("B1" : String) ≠ b := fun hh => h2 hh.symm
          rw [show dictGet c6wGrid b = none by simp [c6wGrid, dictGet, h1', h2']] at hb
          exact Option.noConfusion hb⟩
    (by
      intro k operator o1 o2 hk
      by_cases h1 : k = "A1"
      · subst h1
        have : some (Cell.op (Operand.ref "B1")) = some (Cell.expr operator o1 o2) := by
          rw [← hk]; rfl
        exact Cell.noConfusion (Option.some.inj this)
      · by_cases h2 : k = "B1"
        · subst h2
          have : some (Cell.op (Operand.num 5)) = some (Cell.expr operator o1 o2) := by
            rw [← hk]; rfl
          exact Cell.noConfusion (Option.some.inj this)
        · have h1' : ("A1" : String) ≠ k := fun hh => h1 hh.symm
          have h2' : ("B1" : String) ≠ k := fun hh => h2 hh.symm
          rw [show dictGet c6wGrid k = none by simp [c6wGrid, dictGet, h1', h2']] at hk
          exact Option.noConfusion hk)
    rfl

end Spreadsheet
